import Mathlib

/-!
# Usb.Events — macOS watcher (`UsbEventWatcher.Mac.c`): formal model

A shallow embedding of the macOS USB event watcher. C strings are modelled
as lists of bytes (`List Nat`, each `< 256`); CoreFoundation strings
(`CFStringRef`) as lists of Unicode scalar values (`List Char`).
Platform services (the IOKit registry, DiskArbitration) are modelled as
explicit environment structures passed to each function; callback
invocations are collected into result lists, in invocation order.
-/

namespace UsbEvents

/-! ## CoreFoundation string primitives

`CFStringGetLength` counts UTF-16 code units; `CFStringGetMaximumSizeForEncoding`
for `kCFStringEncodingUTF8` returns three bytes per UTF-16 code unit;
`CFStringGetCString` succeeds iff the full UTF-8 encoding plus the NUL
terminator fits into the supplied buffer, and on success writes exactly the
UTF-8 encoding (we return the byte list, without the terminator). -/

/-- Number of UTF-16 code units used by one Unicode scalar value. -/
def utf16Width (c : Char) : Nat :=
  if c.toNat < 0x10000 then 1 else 2

/-- UTF-8 encoding of one Unicode scalar value. -/
def utf8Encode (c : Char) : List Nat :=
  let v := c.toNat
  if v < 0x80 then [v]
  else if v < 0x800 then [0xC0 + v / 0x40, 0x80 + v % 0x40]
  else if v < 0x10000 then
    [0xE0 + v / 0x1000, 0x80 + (v / 0x40) % 0x40, 0x80 + v % 0x40]
  else
    [0xF0 + v / 0x40000, 0x80 + (v / 0x1000) % 0x40,
     0x80 + (v / 0x40) % 0x40, 0x80 + v % 0x40]

/-- UTF-8 encoding of a CF string (byte list, no terminator). -/
def utf8Bytes (s : List Char) : List Nat :=
  (s.map utf8Encode).flatten

/-- `CFStringGetLength`: number of UTF-16 code units. -/
def cfStringGetLength (s : List Char) : Nat :=
  (s.map utf16Width).sum

/-- `CFStringGetMaximumSizeForEncoding(len, kCFStringEncodingUTF8)`:
`3 * len` where `len` is the UTF-16 length. -/
def cfMaxSizeUTF8 (s : List Char) : Nat :=
  3 * cfStringGetLength s

/-- `CFStringGetCString(s, buf, bufLen, kCFStringEncodingUTF8)`:
succeeds iff the UTF-8 encoding plus terminator fits in `bufLen` bytes;
on success the buffer holds the encoding (returned) followed by NUL. -/
def cfStringGetCString (s : List Char) (bufLen : Nat) : Option (List Nat) :=
  if (utf8Bytes s).length + 1 ≤ bufLen then some (utf8Bytes s) else none

/-- `snprintf(dst, cap, "%s", src)`: copies at most `cap - 1` bytes of `src`
and NUL-terminates; the stored content is the first `cap - 1` bytes. -/
def snprintfStr (cap : Nat) (src : List Nat) : List Nat :=
  src.take (cap - 1)

/-! ## DeviceRecord string-field extraction (`get_usb_device_info`)

For the vendor-name, product-name and serial-number properties, the source
does (lines 253–264 and the two analogous blocks):

    len = CFStringGetLength(prop) + 1;
    c_val = malloc(len * sizeof(char));
    if (c_val) {
        if (CFStringGetCString(prop, c_val, len, kCFStringEncodingUTF8))
            snprintf(field, sizeof(field), "%s", c_val);
        free(c_val);
    }

i.e. the buffer is sized from the UTF-16 code-unit count (an ASCII-sized
buffer), not from `CFStringGetMaximumSizeForEncoding`. The field starts out
empty (the struct is initialised from the zeroed `empty` value). `malloc`
is assumed to succeed. `prop = none` models the property being absent from
the registry (`IORegistryEntrySearchCFProperty` returned NULL). -/
def extractStringField (cap : Nat) (prop : Option (List Char)) : List Nat :=
  match prop with
  | none => []
  | some s =>
    let len := cfStringGetLength s + 1
    match cfStringGetCString s len with
    | some bytes => snprintfStr cap bytes
    | none => []

/-- What the spec demands of a string field: the exact UTF-8 bytes when they
fit within the capacity (round-trip), byte-truncation otherwise. Used only
to compare against `extractStringField`. -/
def specStringField (cap : Nat) (prop : Option (List Char)) : List Nat :=
  match prop with
  | none => []
  | some s =>
    if (utf8Bytes s).length + 1 ≤ cap then utf8Bytes s
    else (utf8Bytes s).take (cap - 1)

/-! ## DeviceRecord construction (`get_usb_device_info`, `iterate_usb_devices`)

`io_name_t` / `io_string_t` values coming back from
`IORegistryEntryGetName` / `IORegistryEntryGetPath` are raw C strings,
modelled as byte lists. Number properties read via
`CFNumberGetValue(kCFNumberSInt32Type)` are modelled as `Int` values
(already reduced to the 32-bit signed result). -/

/-- `snprintf(field, cap, "%d", v)`: decimal rendering of an SInt32,
truncated to `cap - 1` bytes (never reached: at most 11 bytes). -/
def snprintfInt (cap : Nat) (v : Int) : List Nat :=
  ((toString v).data.map Char.toNat).take (cap - 1)

/-- One IOKit device handle as seen by `get_usb_device_info`: the outcome of
each registry lookup the function performs. `none` models a failed lookup
(`IORegistryEntryGetName` ≠ `KERN_SUCCESS`, `IORegistryEntryGetPath` ≠
`KERN_SUCCESS`, `IORegistryEntrySearchCFProperty` returning NULL, or
`CFNumberGetValue` failing — the last two are collapsed for the id fields). -/
structure IODevice where
  name : Option (List Nat)
  regPath : Option (List Nat)
  vendorName : Option (List Char)
  vendorId : Option Int
  productName : Option (List Char)
  productId : Option Int
  serialNumber : Option (List Char)
  deriving DecidableEq, Repr

/-- The `UsbDeviceData` struct: fixed-capacity C string fields, modelled as
the byte content before the NUL terminator. -/
structure UsbDeviceData where
  DeviceName : List Nat := []
  DeviceSystemPath : List Nat := []
  Product : List Nat := []
  ProductDescription : List Nat := []
  ProductID : List Nat := []
  SerialNumber : List Nat := []
  Vendor : List Nat := []
  VendorDescription : List Nat := []
  VendorID : List Nat := []
  deriving DecidableEq, Repr

/-- `get_usb_device_info(device, newdev)` (lines 209–366): returns the record
handed to the listener, or `none` when the required
`IORegistryEntryGetName` lookup failed and the function returned before
building a record (only an stderr message is printed). The `newdev` flag
selects which listener receives the record and does not affect its
content, so it is omitted. All fields start empty (`usbDevice = empty`). -/
def get_usb_device_info (dev : IODevice) : Option UsbDeviceData :=
  match dev.name with
  | none => none
  | some devicename =>
    some {
      DeviceName := snprintfStr 512 devicename
      DeviceSystemPath :=
        match dev.regPath with
        | some p => snprintfStr 1024 p
        | none => []
      Vendor := extractStringField 512 dev.vendorName
      VendorDescription := extractStringField 512 dev.vendorName
      VendorID :=
        match dev.vendorId with
        | some v => snprintfInt 512 v
        | none => []
      Product := extractStringField 512 dev.productName
      ProductDescription := extractStringField 512 dev.productName
      ProductID :=
        match dev.productId with
        | some v => snprintfInt 512 v
        | none => []
      SerialNumber := extractStringField 512 dev.serialNumber
    }

/-- `iterate_usb_devices(iterator, newdev)` (lines 368–377): drains the
iterator, calling `get_usb_device_info` on each handle; the result is the
sequence of records delivered to the listener, in iteration order. -/
def iterate_usb_devices : List IODevice → List UsbDeviceData
  | [] => []
  | d :: rest =>
    match get_usb_device_info d with
    | none => iterate_usb_devices rest
    | some r => r :: iterate_usb_devices rest

/-! ## Notifier configuration (`configure_and_start_notifier`)

The function performs, in order: create the arrival matching dictionary,
register the arrival notification, run the arrival catch-up pass, create
the removal matching dictionary, register the removal notification, run the
removal catch-up pass, add the stop run-loop source, run the run loop
(`CFRunLoopRun`), remove the stop source. Each of the four
creation/registration steps returns early (after an `fprintf(stderr, ...)`)
on failure. Live notifications are delivered by the run loop, so a
direction delivers post-registration events only while `CFRunLoopRun` is
executing. -/

/-- Success or failure of each fallible platform call inside
`configure_and_start_notifier`, plus the number of live (post-catch-up)
events the platform would deliver per direction while the loop runs. -/
structure NotifierEnv where
  matchDictAddedOk : Bool
  addNotificationAddedOk : Bool
  matchDictRemovedOk : Bool
  addNotificationRemovedOk : Bool
  pendingArrivalEvents : Nat
  pendingRemovalEvents : Nat
  deriving DecidableEq, Repr

/-- Observable outcome of one `configure_and_start_notifier` call. -/
structure NotifierOutcome where
  arrivalSubscribed : Bool := false
  removalSubscribed : Bool := false
  arrivalCatchupRan : Bool := false
  removalCatchupRan : Bool := false
  runLoopRan : Bool := false
  liveArrivalDeliveries : Nat := 0
  liveRemovalDeliveries : Nat := 0
  errorsLogged : Nat := 0
  deriving DecidableEq, Repr

/-- `configure_and_start_notifier` (lines 452–513). A direction's live
deliveries happen only if it is subscribed and the run loop ran. -/
def configure_and_start_notifier (env : NotifierEnv) : NotifierOutcome :=
  if !env.matchDictAddedOk then
    { errorsLogged := 1 }
  else if !env.addNotificationAddedOk then
    { errorsLogged := 1 }
  else if !env.matchDictRemovedOk then
    { arrivalSubscribed := true, arrivalCatchupRan := true, errorsLogged := 1 }
  else if !env.addNotificationRemovedOk then
    { arrivalSubscribed := true, arrivalCatchupRan := true, errorsLogged := 1 }
  else
    { arrivalSubscribed := true, removalSubscribed := true,
      arrivalCatchupRan := true, removalCatchupRan := true,
      runLoopRan := true,
      liveArrivalDeliveries := env.pendingArrivalEvents,
      liveRemovalDeliveries := env.pendingRemovalEvents,
      errorsLogged := 0 }

/-! ## Stop signal (`StopMacWatcher`, `addStopRunLoopSource`,
`removeStopRunLoopSource`)

The stop run-loop source is a global (`stopRunLoopSource`, initially NULL).
`addStopRunLoopSource` creates it and attaches it to the loop;
`removeStopRunLoopSource` detaches and releases it only when it is present,
then resets it to NULL; `StopMacWatcher` signals it and wakes the loop only
when it is present. We track the handle's presence, how many times the
source object was released (`CFRelease`), and how many signal/wake pairs
were issued. -/

structure WatcherState where
  stopRunLoopSourcePresent : Bool
  sourceReleases : Nat
  signalsSent : Nat
  deriving DecidableEq, Repr

/-- State before `StartMacWatcher` first runs: `stopRunLoopSource = NULL`. -/
def initialWatcherState : WatcherState :=
  { stopRunLoopSourcePresent := false, sourceReleases := 0, signalsSent := 0 }

/-- `addStopRunLoopSource` (lines 402–423): creates the source and attaches
it to the run loop. -/
def addStopRunLoopSource (s : WatcherState) : WatcherState :=
  { s with stopRunLoopSourcePresent := true }

/-- `removeStopRunLoopSource` (lines 426–437): when the source is present,
detaches it, releases it once, and sets the global back to NULL; otherwise
does nothing. -/
def removeStopRunLoopSource (s : WatcherState) : WatcherState :=
  if s.stopRunLoopSourcePresent then
    { s with stopRunLoopSourcePresent := false,
             sourceReleases := s.sourceReleases + 1 }
  else s

/-- `StopMacWatcher` (lines 558–568): when the source is present, signals it
and wakes the loop; otherwise does nothing. It never releases anything. -/
def StopMacWatcher (s : WatcherState) : WatcherState :=
  if s.stopRunLoopSourcePresent then
    { s with signalsSent := s.signalsSent + 1 }
  else s

/-! ## Mount resolution (`GetMountPathFromDisk`, `getMountPathByBSDName`)

Strings flowing through this part (BSD names, registry paths, mount paths)
are modelled as `List Char`. This is faithful: every CFString → C-string
conversion in this part of the source uses a buffer of
`CFStringGetMaximumSizeForEncoding(..., kCFStringEncodingUTF8) + 1` bytes,
which always succeeds (lemma `cfStringGetCString_maxSize` below), and the
UTF-8 encoding is injective and prefix-compatible, so comparing scalar
sequences agrees with the byte-level `strncmp` the source performs. -/

/-- One child registry node visited by `getMountPathByBSDName`:
`bsdProp` is the outcome of `IORegistryEntrySearchCFProperty(child,
"BSD Name", ..., kIORegistryIterateRecursively)` (NULL = `none`). -/
structure RegChild where
  bsdProp : Option (List Char)
  deriving DecidableEq, Repr

/-- Platform environment for one `getMountPathByBSDName` call:
  * `sessionOk` — whether `DASessionCreate` succeeds;
  * `matchingOk` — whether `IOServiceGetMatchingServices` (over
    `IOBSDNameMatching`) returns `KERN_SUCCESS`;
  * `services` — the matched services in iterator order, each as its list
    of child nodes (a failed `IORegistryEntryGetChildIterator` is an empty
    child list);
  * `disks` — the DiskArbitration view: the association of BSD names to
    the volume mount path `GetMountPathFromDisk` can extract for them. -/
structure BSDEnv where
  sessionOk : Bool
  matchingOk : Bool
  services : List (List RegChild)
  disks : List (List Char × List Char)
  deriving DecidableEq, Repr

/-- `GetMountPathFromDisk` (lines 91–115): looks the BSD name up in
DiskArbitration and extracts the volume path. The chain
`DADiskCreateFromBSDName` → `DADiskCopyDescription` → volume-path key →
`CFURLGetFileSystemRepresentation` either produces a mount path or fails at
some step; all failure steps are collapsed into absence from `disks`. -/
def GetMountPathFromDisk (env : BSDEnv) (bsdName : List Char) : Option (List Char) :=
  (env.disks.find? (fun p => p.1 == bsdName)).map (fun p => p.2)

/-- The per-child body of the inner loop of `getMountPathByBSDName`
(lines 153–185): children without a "BSD Name" property, and children whose
BSD name has no mount path, are passed over; the first mount path found
stops the scan (`if (found) break`). -/
def scanChildren (env : BSDEnv) : List RegChild → Option (List Char)
  | [] => none
  | c :: rest =>
    match c.bsdProp with
    | some b =>
      match GetMountPathFromDisk env b with
      | some mp => some mp
      | none => scanChildren env rest
    | none => scanChildren env rest

/-- The outer service loop of `getMountPathByBSDName` (lines 146–191):
services are visited in iterator order; the scan stops at the first service
whose children produced a mount path (`if (found) break`). -/
def scanServices (env : BSDEnv) : List (List RegChild) → Option (List Char)
  | [] => none
  | svc :: rest =>
    match scanChildren env svc with
    | some mp => some mp
    | none => scanServices env rest

/-- `getMountPathByBSDName` (lines 118–205): NULL argument, session-creation
failure and matching failure all return 0 (`none`); otherwise the child
scan runs first and, only if it found nothing, the device's own BSD name is
queried directly. -/
def getMountPathByBSDName (env : BSDEnv) (bsdName : Option (List Char)) :
    Option (List Char) :=
  match bsdName with
  | none => none
  | some b =>
    if !env.sessionOk then none
    else if !env.matchingOk then none
    else
      match scanServices env env.services with
      | some mp => some mp
      | none => GetMountPathFromDisk env b

/-! ## `GetMacMountPoint` -/

/-- One USB mass-storage interface yielded by the matching iterator of
`GetMacMountPoint`: `path` is the outcome of `IORegistryEntryGetPath`
(`none` = failure), `bsdName` the outcome of the recursive "BSD Name"
property search (`none` = NULL). -/
structure UsbIface where
  path : Option (List Char)
  bsdName : Option (List Char)
  deriving DecidableEq, Repr

/-- Environment of one `GetMacMountPoint` call: the matched mass-storage
interfaces in registry iterator order (a failed
`IOServiceGetMatchingServices` is an empty iterator, as the source ignores
its return value), plus the environment of the nested
`getMountPathByBSDName` call. -/
structure MacMountEnv where
  interfaces : List UsbIface
  bsd : BSDEnv
  deriving DecidableEq, Repr

/-- The prefix test of line 607: `strncmp(devicepath, syspath,
strlen(syspath)) == 0`, i.e. the given `syspath` is a prefix of the
interface's own registry path. -/
def ifaceMatches (sp : List Char) (i : UsbIface) : Bool :=
  match i.path with
  | some dp => sp.isPrefixOf dp
  | none => false

/-- Result of the interface loop of `GetMacMountPoint` (lines 602–644):
  * `result = none` — no interface passed the prefix test (`match` stayed 0);
  * `result = some none` — an interface matched (`match = 1`, loop broke)
    but produced no mount path (`found` stayed 0);
  * `result = some (some mp)` — an interface matched and resolved to `mp`;
  * `examined` — how many interfaces were taken from the iterator;
  * `daSessions` — how many `getMountPathByBSDName` calls were made (each
    attempts to open its own DiskArbitration session). -/
structure IfaceScan where
  result : Option (Option (List Char))
  examined : Nat
  daSessions : Nat
  deriving DecidableEq, Repr

/-- The interface loop of `GetMacMountPoint`. An interface whose
`IORegistryEntryGetPath` fails is passed over without a prefix test. On a
prefix match, the BSD name (when present) is converted with a maximum-sized
buffer — which always succeeds — and handed to `getMountPathByBSDName`;
in every matched case the loop breaks (`match = 1`). -/
def scanInterfaces (env : BSDEnv) (sp : List Char) : List UsbIface → IfaceScan
  | [] => { result := none, examined := 0, daSessions := 0 }
  | i :: rest =>
    match i.path with
    | some dp =>
      if sp.isPrefixOf dp then
        match i.bsdName with
        | some b =>
          { result := some (getMountPathByBSDName env (some b)),
            examined := 1, daSessions := 1 }
        | none => { result := some none, examined := 1, daSessions := 0 }
      else
        let s := scanInterfaces env sp rest
        { s with examined := s.examined + 1 }
    | none =>
      let s := scanInterfaces env sp rest
      { s with examined := s.examined + 1 }

/-- Observable trace of one `GetMacMountPoint` call: the callback
invocations in order, whether the registry was queried
(`IOServiceMatching` / `IOServiceGetMatchingServices` reached), how many
interfaces were examined, and how many DiskArbitration sessions were
opened. -/
structure MountTrace where
  calls : List (List Char)
  registryQueried : Bool
  examined : Nat
  daSessions : Nat
  deriving DecidableEq, Repr

/-- `GetMacMountPoint` (lines 570–649). A NULL `syspath` invokes the
callback with `""` and returns at once; otherwise the interface loop runs
and the callback receives the resolved mount path (invoked inside the loop
when `found`), or `""` from the trailing `if (!found)` — the empty string
is modelled as the empty character list. -/
def GetMacMountPoint (env : MacMountEnv) (syspath : Option (List Char)) :
    MountTrace :=
  match syspath with
  | none => { calls := [[]], registryQueried := false, examined := 0, daSessions := 0 }
  | some sp =>
    let s := scanInterfaces env.bsd sp env.interfaces
    { calls :=
        match s.result with
        | some (some mp) => [mp]
        | some none => [[]]
        | none => [[]],
      registryQueried := true,
      examined := s.examined,
      daSessions := s.daSessions }

/-- Claim C4's declarative restatement of the mount report for a matched
BSD name, following the claim's own three steps: first a child block device
with a mount path (in registry order), otherwise the block device's own
mount path from DiskArbitration, otherwise the empty string. -/
def mountReportSpec (env : BSDEnv) (b : List Char) : List Char :=
  match (env.services.flatten.filterMap
          (fun c => c.bsdProp.bind (fun bn => GetMountPathFromDisk env bn))).head? with
  | some mp => mp
  | none =>
    match GetMountPathFromDisk env b with
    | some mp => mp
    | none => []

/-- Claim C3's selection rule as literally stated: the first interface
whose own registry path is a prefix of the given device path. -/
def selectInterfaceClaim (sp : List Char) (ifaces : List UsbIface) :
    Option UsbIface :=
  ifaces.find? (fun i =>
    match i.path with
    | some dp => dp.isPrefixOf sp
    | none => false)

/-! ## Context-based watcher sessions

Modelled from the spec: the context-variant entry points
(`CreateMacWatcherContext`, `RunMacWatcher`, `StopMacWatcher(ctx)`,
`ReleaseMacWatcherContext`) are declared in `UsbEventWatcher.Mac.h` and
exercised by the sample host program, but their C implementation is not
among the provided sources (the provided `.c` is the historical
global-state variant). Following the spec's data model (§3
`WatcherContext`) and design note (§9): a session is an explicit struct
owned by the caller, holding its two listener references (immutable after
creation) and its own run-loop, notification-port and stop-signal handles,
set during the `Created→Running` transition; `stop` signals only that
context's stop source. Callbacks and platform handles are modelled as
opaque numeric identities; the world allocates fresh context ids and fresh
handles from monotone counters. -/

structure MacWatcherContext where
  insertedCallback : Nat
  removedCallback : Nat
  runLoop : Option Nat := none
  notificationPort : Option Nat := none
  stopSignalSource : Option Nat := none
  stopSignals : Nat := 0
  deriving DecidableEq, Repr

/-- The process-wide collection of live contexts, with fresh-id and
fresh-handle counters. -/
structure MacWorld where
  contexts : List (Nat × MacWatcherContext)
  nextId : Nat
  nextHandle : Nat
  deriving DecidableEq, Repr

/-- Look a context up by its handle. -/
def getContext (w : MacWorld) (id : Nat) : Option MacWatcherContext :=
  (w.contexts.find? (fun p => p.1 == id)).map (fun p => p.2)

/-- Modelled from the spec: `CreateMacWatcherContext(inserted, removed)`
allocates a fresh session struct holding the two listeners, with no bound
loop, port or stop source yet. -/
def CreateMacWatcherContext (ins rem : Nat) (w : MacWorld) : Nat × MacWorld :=
  (w.nextId,
   { w with
     contexts :=
       (w.nextId, { insertedCallback := ins, removedCallback := rem }) :: w.contexts,
     nextId := w.nextId + 1 })

/-- Modelled from the spec: the `Created→Running` transition of
`RunMacWatcher(ctx)` binds the current thread's run loop and creates the
context's own notification port and stop-signal source; each handle is
fresh to this session. -/
def RunMacWatcherStart (id : Nat) (w : MacWorld) : MacWorld :=
  { w with
    contexts := w.contexts.map (fun p =>
      if p.1 == id then
        (p.1, { p.2 with
                runLoop := some w.nextHandle,
                notificationPort := some (w.nextHandle + 1),
                stopSignalSource := some (w.nextHandle + 2) })
      else p),
    nextHandle := w.nextHandle + 3 }

/-- Modelled from the spec: `StopMacWatcher(ctx)` signals the stop-signal
source of that context alone (a no-op when the context has none, or does
not exist). -/
def StopMacWatcherCtx (id : Nat) (w : MacWorld) : MacWorld :=
  { w with
    contexts := w.contexts.map (fun p =>
      if p.1 == id then
        match p.2.stopSignalSource with
        | some _ => (p.1, { p.2 with stopSignals := p.2.stopSignals + 1 })
        | none => p
      else p) }

/-- The concrete two-session scenario of the spec: two contexts created
back to back; returns both ids and the resulting world. -/
def twoSessions (a b c d : Nat) (w0 : MacWorld) : Nat × Nat × MacWorld :=
  let r1 := CreateMacWatcherContext a b w0
  let r2 := CreateMacWatcherContext c d r1.2
  (r1.1, r2.1, r2.2)

/-! ## Supporting lemmas -/

theorem utf8Encode_length_le (c : Char) :
    (utf8Encode c).length ≤ 3 * utf16Width c := by
  unfold utf8Encode utf16Width
  by_cases h1 : c.toNat < 0x80
  · have h3 : c.toNat < 0x10000 := Nat.lt_trans h1 (by norm_num)
    simp [h1, h3]
  · by_cases h2 : c.toNat < 0x800
    · have h3 : c.toNat < 0x10000 := Nat.lt_trans h2 (by norm_num)
      simp [h1, h2, h3]
    · by_cases h3 : c.toNat < 0x10000
      · simp [h1, h2, h3]
      · simp [h1, h2, h3]

theorem utf8Bytes_length_le (s : List Char) :
    (utf8Bytes s).length ≤ 3 * cfStringGetLength s := by
  induction s with
  | nil => simp [utf8Bytes, cfStringGetLength]
  | cons c cs ih =>
    have hc : utf8Bytes (c :: cs) = utf8Encode c ++ utf8Bytes cs := by
      simp [utf8Bytes]
    have hl : cfStringGetLength (c :: cs) = utf16Width c + cfStringGetLength cs := by
      simp [cfStringGetLength]
    rw [hc, hl, List.length_append, Nat.mul_add]
    exact Nat.add_le_add (utf8Encode_length_le c) ih

/-- A `CFStringGetCString` call with a
`CFStringGetMaximumSizeForEncoding(..., kCFStringEncodingUTF8) + 1`-byte
buffer always succeeds (this justifies collapsing the conversions at the
call sites that size their buffers this way). -/
theorem cfStringGetCString_maxSize (s : List Char) :
    cfStringGetCString s (cfMaxSizeUTF8 s + 1) = some (utf8Bytes s) := by
  unfold cfStringGetCString cfMaxSizeUTF8
  rw [if_pos]
  exact Nat.add_le_add_right (utf8Bytes_length_le s) 1

theorem iterate_usb_devices_append (l1 l2 : List IODevice) :
    iterate_usb_devices (l1 ++ l2) =
      iterate_usb_devices l1 ++ iterate_usb_devices l2 := by
  induction l1 with
  | nil => simp [iterate_usb_devices]
  | cons d rest ih =>
    simp only [List.cons_append, iterate_usb_devices]
    cases get_usb_device_info d <;> simp [ih]

/-! ## Claim theorems -/

/-- C1. The claim fails on the code, and the spec is the stated intent: the
vendor-name / product-name / serial-number conversions size their buffer
from `CFStringGetLength` (UTF-16 code units — an ASCII-sized buffer), not
from the UTF-8 size. At the concrete input `"é"` — a single scalar whose
UTF-8 form is two bytes, far within the 512-byte capacity — the allocated
buffer is 2 bytes, `CFStringGetCString` needs 3 and fails, and the field
is left empty instead of holding `"é"` as the claim requires
(`specStringField` states the claimed behaviour). -/
theorem extractStringField_ascii_sized_buffer_bug :
    extractStringField 512 (some ['é']) = [] ∧
    (utf8Bytes ['é']).length + 1 ≤ 512 ∧
    specStringField 512 (some ['é']) = utf8Bytes ['é'] ∧
    utf8Bytes ['é'] ≠ [] := by
  decide

/-- C2 counterexample. With everything succeeding except the creation of
the removal-direction matching dictionary (and one pending live arrival
event), the code logs the failure and leaves removal unsubscribed — but
`configure_and_start_notifier` returns before `CFRunLoopRun`, so the run
loop never runs and the still-subscribed arrival direction delivers none
of its pending live events, contrary to the claim that the other direction
"continues to deliver events". -/
theorem configure_notifier_other_direction_dead :
    (configure_and_start_notifier ⟨true, true, false, true, 1, 0⟩).arrivalSubscribed = true ∧
    (configure_and_start_notifier ⟨true, true, false, true, 1, 0⟩).removalSubscribed = false ∧
    (configure_and_start_notifier ⟨true, true, false, true, 1, 0⟩).errorsLogged = 1 ∧
    (configure_and_start_notifier ⟨true, true, false, true, 1, 0⟩).runLoopRan = false ∧
    (configure_and_start_notifier ⟨true, true, false, true, 1, 0⟩).liveArrivalDeliveries = 0 := by
  decide

/-- C2 amended. A creation/registration failure is logged and aborts the
rest of `configure_and_start_notifier`: steps already completed stand (an
arrival subscription and its catch-up pass survive a later removal-side
failure), the failing direction and everything after it are skipped, and
— in every failure case — the run loop is not started, so neither
direction delivers any live event for the session. -/
theorem configure_notifier_failure_aborts (env : NotifierEnv) :
    (configure_and_start_notifier env).arrivalSubscribed =
      (env.matchDictAddedOk && env.addNotificationAddedOk) ∧
    (configure_and_start_notifier env).arrivalCatchupRan =
      (env.matchDictAddedOk && env.addNotificationAddedOk) ∧
    (configure_and_start_notifier env).removalSubscribed =
      (env.matchDictAddedOk && env.addNotificationAddedOk &&
       env.matchDictRemovedOk && env.addNotificationRemovedOk) ∧
    (configure_and_start_notifier env).removalCatchupRan =
      (env.matchDictAddedOk && env.addNotificationAddedOk &&
       env.matchDictRemovedOk && env.addNotificationRemovedOk) ∧
    (configure_and_start_notifier env).runLoopRan =
      (env.matchDictAddedOk && env.addNotificationAddedOk &&
       env.matchDictRemovedOk && env.addNotificationRemovedOk) ∧
    (configure_and_start_notifier env).liveArrivalDeliveries =
      (if env.matchDictAddedOk && env.addNotificationAddedOk &&
          env.matchDictRemovedOk && env.addNotificationRemovedOk
       then env.pendingArrivalEvents else 0) ∧
    (configure_and_start_notifier env).liveRemovalDeliveries =
      (if env.matchDictAddedOk && env.addNotificationAddedOk &&
          env.matchDictRemovedOk && env.addNotificationRemovedOk
       then env.pendingRemovalEvents else 0) ∧
    (configure_and_start_notifier env).errorsLogged =
      (if env.matchDictAddedOk && env.addNotificationAddedOk &&
          env.matchDictRemovedOk && env.addNotificationRemovedOk
       then 0 else 1) := by
  obtain ⟨a, b, c, d, p, q⟩ := env
  cases a <;> cases b <;> cases c <;> cases d <;>
    simp [configure_and_start_notifier]

/-- C7. `StopMacWatcher` is a no-op whenever the stop-signal source is
absent — before `addStopRunLoopSource` has run (any number of calls on the
initial state change nothing) and after `removeStopRunLoopSource` has torn
it down (any number of calls change nothing). `StopMacWatcher` never
releases the source or changes its presence, and
`removeStopRunLoopSource` never performs a second teardown of an
already-released source (it is idempotent). -/
theorem StopMacWatcher_idempotent_noop :
    (∀ n : Nat, StopMacWatcher^[n] initialWatcherState = initialWatcherState) ∧
    (∀ s : WatcherState,
      (StopMacWatcher s).sourceReleases = s.sourceReleases ∧
      (StopMacWatcher s).stopRunLoopSourcePresent = s.stopRunLoopSourcePresent) ∧
    (∀ (s : WatcherState) (n : Nat),
      StopMacWatcher^[n] (removeStopRunLoopSource s) = removeStopRunLoopSource s) ∧
    (∀ s : WatcherState,
      removeStopRunLoopSource (removeStopRunLoopSource s) = removeStopRunLoopSource s) := by
  have hnop : ∀ s : WatcherState,
      s.stopRunLoopSourcePresent = false → StopMacWatcher s = s := by
    intro s hs
    simp [StopMacWatcher, hs]
  have hrem : ∀ s : WatcherState,
      (removeStopRunLoopSource s).stopRunLoopSourcePresent = false := by
    intro s
    unfold removeStopRunLoopSource
    by_cases h : s.stopRunLoopSourcePresent <;> simp [h]
  have hiter : ∀ (s : WatcherState), s.stopRunLoopSourcePresent = false →
      ∀ n : Nat, StopMacWatcher^[n] s = s := by
    intro s hs n
    induction n with
    | zero => rfl
    | succ m ih => rw [Function.iterate_succ_apply, hnop s hs, ih]
  refine ⟨hiter initialWatcherState rfl, ?_, ?_, ?_⟩
  · intro s
    unfold StopMacWatcher
    by_cases h : s.stopRunLoopSourcePresent <;> simp [h]
  · intro s n
    exact hiter _ (hrem s) n
  · intro s
    have hremnop : ∀ t : WatcherState, t.stopRunLoopSourcePresent = false →
        removeStopRunLoopSource t = t := by
      intro t ht
      simp [removeStopRunLoopSource, ht]
    exact hremnop _ (hrem s)

/-- C9. `GetMacMountPoint` with a NULL device path invokes the callback
exactly once with the empty string and returns at once: the device
registry is never queried, no interface is examined, and no
DiskArbitration session is opened — whatever the platform environment. -/
theorem GetMacMountPoint_null_syspath (env : MacMountEnv) :
    GetMacMountPoint env none =
      { calls := [[]], registryQueried := false, examined := 0, daSessions := 0 } :=
  rfl

/-- C5. Every `GetMacMountPoint` call invokes the mount-point callback
exactly once — the invocation list of the (synchronous) call always has
length one — and when the scan found no mount point (`found` stayed 0,
i.e. no interface matched or the matched one did not resolve) the single
invocation carries the empty string. -/
theorem GetMacMountPoint_callback_exactly_once (env : MacMountEnv)
    (syspath : Option (List Char)) :
    (GetMacMountPoint env syspath).calls.length = 1 ∧
    ((match syspath with
      | none => (none : Option (List Char))
      | some sp => ((scanInterfaces env.bsd sp env.interfaces).result).getD none) = none →
      (GetMacMountPoint env syspath).calls = [[]]) := by
  cases syspath with
  | none => exact ⟨rfl, fun _ => rfl⟩
  | some sp =>
    simp only [GetMacMountPoint]
    rcases h : (scanInterfaces env.bsd sp env.interfaces).result with _ | mp
    · simp [h]
    · rcases mp with _ | mp' <;> simp [h]

theorem GetMacMountPoint_callback_exactly_once_witness :
    (GetMacMountPoint ⟨[], ⟨true, true, [], []⟩⟩ (some ['z'])).calls.length = 1 ∧
    (GetMacMountPoint ⟨[], ⟨true, true, [], []⟩⟩ (some ['z'])).calls = [[]] :=
  ⟨(GetMacMountPoint_callback_exactly_once ⟨[], ⟨true, true, [], []⟩⟩ (some ['z'])).1,
   (GetMacMountPoint_callback_exactly_once ⟨[], ⟨true, true, [], []⟩⟩ (some ['z'])).2
     (by decide)⟩

/-- `get_usb_device_info` only produces a record when the required name
lookup succeeded. -/
theorem get_usb_device_info_name_required (dev : IODevice) (r : UsbDeviceData)
    (h : get_usb_device_info dev = some r) : ∃ nm, dev.name = some nm := by
  cases hn : dev.name with
  | none =>
    unfold get_usb_device_info at h
    rw [hn] at h
    exact absurd h (by simp)
  | some nm => exact ⟨nm, rfl⟩

/-- Every record delivered by `iterate_usb_devices` comes from a handle of
the batch whose `deviceName` extraction succeeded. -/
theorem iterate_usb_devices_mem_source (devs : List IODevice) :
    ∀ r ∈ iterate_usb_devices devs,
      ∃ dev, dev ∈ devs ∧ (∃ nm, dev.name = some nm) ∧
        get_usb_device_info dev = some r := by
  induction devs with
  | nil => simp [iterate_usb_devices]
  | cons d rest ih =>
    intro r hr
    simp only [iterate_usb_devices] at hr
    cases hg : get_usb_device_info d with
    | none =>
      rw [hg] at hr
      obtain ⟨dev, hmem, hnm, heq⟩ := ih r hr
      exact ⟨dev, List.mem_cons_of_mem d hmem, hnm, heq⟩
    | some rec0 =>
      rw [hg] at hr
      rcases List.mem_cons.mp hr with h1 | h2
      · exact ⟨d, List.mem_cons_self d rest,
          get_usb_device_info_name_required d rec0 hg, h1 ▸ hg⟩
      · obtain ⟨dev, hmem, hnm, heq⟩ := ih r h2
        exact ⟨dev, List.mem_cons_of_mem d hmem, hnm, heq⟩

/-- C6. A device handle whose registry name lookup fails is skipped: no
record is produced for it, the rest of the batch is processed exactly as
if the handle were absent, and every record that is delivered stems from a
handle whose `deviceName` extraction succeeded. -/
theorem iterate_usb_devices_skips_nameless (pre post : List IODevice)
    (d : IODevice) (hd : d.name = none) :
    iterate_usb_devices (pre ++ d :: post) =
      iterate_usb_devices pre ++ iterate_usb_devices post ∧
    ∀ r ∈ iterate_usb_devices (pre ++ d :: post),
      ∃ dev, dev ∈ pre ++ d :: post ∧ (∃ nm, dev.name = some nm) ∧
        get_usb_device_info dev = some r := by
  have hnone : get_usb_device_info d = none := by
    unfold get_usb_device_info
    rw [hd]
  constructor
  · rw [iterate_usb_devices_append]
    congr 1
    simp [iterate_usb_devices, hnone]
  · exact iterate_usb_devices_mem_source (pre ++ d :: post)

theorem iterate_usb_devices_skips_nameless_witness :
    iterate_usb_devices
        [⟨some [65], none, none, none, none, none, none⟩,
         ⟨none, none, none, none, none, none, none⟩,
         ⟨some [66], none, none, none, none, none, none⟩] =
      iterate_usb_devices [⟨some [65], none, none, none, none, none, none⟩] ++
        iterate_usb_devices [⟨some [66], none, none, none, none, none, none⟩] :=
  (iterate_usb_devices_skips_nameless
    [⟨some [65], none, none, none, none, none, none⟩]
    [⟨some [66], none, none, none, none, none, none⟩]
    ⟨none, none, none, none, none, none, none⟩ rfl).1

/-- Interfaces failing the prefix test (or without a readable path) are
passed over: they only increase the examined count. -/
theorem scanInterfaces_skip_prefix (env : BSDEnv) (sp : List Char)
    (pre l : List UsbIface) (hpre : ∀ j ∈ pre, ifaceMatches sp j = false) :
    scanInterfaces env sp (pre ++ l) =
      { scanInterfaces env sp l with
        examined := (scanInterfaces env sp l).examined + pre.length } := by
  induction pre with
  | nil => simp
  | cons j rest ih =>
    have hj : ifaceMatches sp j = false := hpre j (List.mem_cons_self j rest)
    have hrest : ∀ k ∈ rest, ifaceMatches sp k = false :=
      fun k hk => hpre k (List.mem_cons_of_mem j hk)
    have ih' := ih hrest
    cases hp : j.path with
    | none =>
      simp only [List.cons_append, scanInterfaces, hp]
      simp only [List.append_eq]
      rw [ih']
      simp
      omega
    | some dp =>
      have hpref : sp.isPrefixOf dp = false := by
        have := hj
        unfold ifaceMatches at this
        rw [hp] at this
        exact this
      simp only [List.cons_append, scanInterfaces, hp, hpref]
      rw [if_neg (by decide)]
      simp only [List.append_eq]
      rw [ih']
      simp
      omega

/-- At the first interface passing the prefix test the loop breaks: the
scan of `i :: post` is the scan of `[i]`, whatever follows. -/
theorem scanInterfaces_match_breaks (env : BSDEnv) (sp : List Char)
    (i : UsbIface) (post : List UsbIface) (hi : ifaceMatches sp i = true) :
    scanInterfaces env sp (i :: post) = scanInterfaces env sp [i] := by
  cases hp : i.path with
  | none =>
    unfold ifaceMatches at hi
    rw [hp] at hi
    exact absurd hi (by simp)
  | some dp =>
    have hpref : sp.isPrefixOf dp = true := by
      have := hi
      unfold ifaceMatches at this
      rw [hp] at this
      exact this
    cases hb : i.bsdName with
    | none => simp [scanInterfaces, hp, hpref, hb]
    | some b => simp [scanInterfaces, hp, hpref, hb]

/-- C3 counterexample. A world with a single mass-storage interface whose
registry path is `"abc"`, resolving (through its BSD name `"d"`) to the
mount path `"m"`; the device path given is `"ab"`. No interface's own path
is a prefix of the device path — `selectInterfaceClaim`, the claim's
selection rule as stated, selects nothing — yet the code matches the
interface (it tests the reverse direction: `strncmp(devicepath, syspath,
strlen(syspath))`) and reports its mount path. -/
theorem GetMacMountPoint_prefix_direction_counterexample :
    selectInterfaceClaim ['a', 'b'] [⟨some ['a', 'b', 'c'], some ['d']⟩] = none ∧
    (GetMacMountPoint
        ⟨[⟨some ['a', 'b', 'c'], some ['d']⟩],
         ⟨true, true, [], [(['d'], ['m'])]⟩⟩
        (some ['a', 'b'])).calls = [['m']] := by
  decide

/-- C3 amended. `GetMacMountPoint` selects the first mass-storage interface
whose own registry path has the given device path as a prefix (the
direction checked by `ifaceMatches`, per `strncmp(devicepath, syspath,
strlen(syspath))`): interfaces before the first such match only add to the
examined count, the trace is independent of every interface after the
match, and exactly the interfaces up to and including the match are
examined. -/
theorem GetMacMountPoint_first_prefix_match (bsd : BSDEnv) (sp : List Char)
    (pre post : List UsbIface) (i : UsbIface)
    (hpre : ∀ j ∈ pre, ifaceMatches sp j = false)
    (hi : ifaceMatches sp i = true) :
    GetMacMountPoint ⟨pre ++ i :: post, bsd⟩ (some sp) =
      GetMacMountPoint ⟨pre ++ [i], bsd⟩ (some sp) ∧
    (GetMacMountPoint ⟨pre ++ i :: post, bsd⟩ (some sp)).examined =
      pre.length + 1 := by
  have hbreak := scanInterfaces_match_breaks bsd sp i post hi
  have hskip1 := scanInterfaces_skip_prefix bsd sp pre (i :: post) hpre
  have hskip2 := scanInterfaces_skip_prefix bsd sp pre [i] hpre
  have hone : (scanInterfaces bsd sp [i]).examined = 1 := by
    cases hp : i.path with
    | none =>
      unfold ifaceMatches at hi
      rw [hp] at hi
      exact absurd hi (by simp)
    | some dp =>
      have hpref : sp.isPrefixOf dp = true := by
        have := hi
        unfold ifaceMatches at this
        rw [hp] at this
        exact this
      cases hb : i.bsdName with
      | none => simp [scanInterfaces, hp, hpref, hb]
      | some b => simp [scanInterfaces, hp, hpref, hb]
  constructor
  · simp only [GetMacMountPoint, hskip1, hskip2, hbreak]
  · simp only [GetMacMountPoint, hskip1, hbreak, hone]
    exact Nat.add_comm 1 pre.length

theorem GetMacMountPoint_first_prefix_match_witness :
    (∀ j ∈ [(⟨some ['z'], none⟩ : UsbIface)], ifaceMatches ['a'] j = false) ∧
    ifaceMatches ['a'] ⟨some ['a', 'b'], none⟩ = true ∧
    GetMacMountPoint
        ⟨[⟨some ['z'], none⟩] ++ (⟨some ['a', 'b'], none⟩ : UsbIface) ::
           [⟨some ['a', 'c'], some ['d']⟩],
         ⟨true, true, [], [(['d'], ['m'])]⟩⟩ (some ['a']) =
      GetMacMountPoint
        ⟨[⟨some ['z'], none⟩] ++ [⟨some ['a', 'b'], none⟩],
         ⟨true, true, [], [(['d'], ['m'])]⟩⟩ (some ['a']) ∧
    (GetMacMountPoint
        ⟨[⟨some ['z'], none⟩] ++ (⟨some ['a', 'b'], none⟩ : UsbIface) ::
           [⟨some ['a', 'c'], some ['d']⟩],
         ⟨true, true, [], [(['d'], ['m'])]⟩⟩ (some ['a'])).examined = 2 :=
  ⟨by decide, by decide,
   (GetMacMountPoint_first_prefix_match ⟨true, true, [], [(['d'], ['m'])]⟩ ['a']
     [⟨some ['z'], none⟩] [⟨some ['a', 'c'], some ['d']⟩]
     ⟨some ['a', 'b'], none⟩ (by decide) (by decide)).1,
   (GetMacMountPoint_first_prefix_match ⟨true, true, [], [(['d'], ['m'])]⟩ ['a']
     [⟨some ['z'], none⟩] [⟨some ['a', 'c'], some ['d']⟩]
     ⟨some ['a', 'b'], none⟩ (by decide) (by decide)).2⟩

/-- C10. Once an interface passes the prefix test the loop breaks even when
that interface yields no BSD name or its mount resolution fails
(`getMountPathByBSDName` of its BSD name — `none` covers both the missing
name and a failed resolution): only that one interface is examined and the
callback receives the empty string, whatever mounted interfaces follow. -/
theorem GetMacMountPoint_stops_at_first_match (bsd : BSDEnv) (sp : List Char)
    (i : UsbIface) (post : List UsbIface)
    (hi : ifaceMatches sp i = true)
    (hfail : getMountPathByBSDName bsd i.bsdName = none) :
    (GetMacMountPoint ⟨i :: post, bsd⟩ (some sp)).calls = [[]] ∧
    (GetMacMountPoint ⟨i :: post, bsd⟩ (some sp)).examined = 1 := by
  cases hp : i.path with
  | none =>
    unfold ifaceMatches at hi
    rw [hp] at hi
    exact absurd hi (by simp)
  | some dp =>
    have hpref : sp.isPrefixOf dp = true := by
      have := hi
      unfold ifaceMatches at this
      rw [hp] at this
      exact this
    cases hb : i.bsdName with
    | none => simp [GetMacMountPoint, scanInterfaces, hp, hpref, hb]
    | some b =>
      rw [hb] at hfail
      simp [GetMacMountPoint, scanInterfaces, hp, hpref, hb, hfail]

theorem GetMacMountPoint_stops_at_first_match_witness :
    ifaceMatches ['a'] ⟨some ['a', 'b'], none⟩ = true ∧
    getMountPathByBSDName
        (⟨true, true, [], [(['p'], ['m'])]⟩ : BSDEnv)
        (⟨some ['a', 'b'], none⟩ : UsbIface).bsdName = none ∧
    ifaceMatches ['a'] ⟨some ['a', 'c'], some ['p']⟩ = true ∧
    getMountPathByBSDName (⟨true, true, [], [(['p'], ['m'])]⟩ : BSDEnv)
        (some ['p']) = some ['m'] ∧
    (GetMacMountPoint
        ⟨(⟨some ['a', 'b'], none⟩ : UsbIface) :: [⟨some ['a', 'c'], some ['p']⟩],
         ⟨true, true, [], [(['p'], ['m'])]⟩⟩ (some ['a'])).calls = [[]] ∧
    (GetMacMountPoint
        ⟨(⟨some ['a', 'b'], none⟩ : UsbIface) :: [⟨some ['a', 'c'], some ['p']⟩],
         ⟨true, true, [], [(['p'], ['m'])]⟩⟩ (some ['a'])).examined = 1 :=
  ⟨by decide, by decide, by decide, by decide,
   (GetMacMountPoint_stops_at_first_match ⟨true, true, [], [(['p'], ['m'])]⟩
     ['a'] ⟨some ['a', 'b'], none⟩ [⟨some ['a', 'c'], some ['p']⟩]
     (by decide) (by decide)).1,
   (GetMacMountPoint_stops_at_first_match ⟨true, true, [], [(['p'], ['m'])]⟩
     ['a'] ⟨some ['a', 'b'], none⟩ [⟨some ['a', 'c'], some ['p']⟩]
     (by decide) (by decide)).2⟩

/-- The child loop returns the first mount path among the children, in
order. -/
theorem scanChildren_eq_head (env : BSDEnv) (cs : List RegChild) :
    scanChildren env cs =
      (cs.filterMap (fun c => c.bsdProp.bind
        (fun bn => GetMountPathFromDisk env bn))).head? := by
  induction cs with
  | nil => rfl
  | cons c rest ih =>
    cases hb : c.bsdProp with
    | none => simp [scanChildren, hb, ih]
    | some b =>
      cases hm : GetMountPathFromDisk env b with
      | none => simp [scanChildren, hb, hm, ih]
      | some mp => simp [scanChildren, hb, hm]

/-- The service loop returns the first mount path among all services'
children, flattened in order. -/
theorem scanServices_eq_head (env : BSDEnv) (svcs : List (List RegChild)) :
    scanServices env svcs =
      (svcs.flatten.filterMap (fun c => c.bsdProp.bind
        (fun bn => GetMountPathFromDisk env bn))).head? := by
  induction svcs with
  | nil => rfl
  | cons svc rest ih =>
    simp only [scanServices, List.flatten_cons, List.filterMap_append]
    rw [scanChildren_eq_head]
    cases hh : (svc.filterMap (fun c => c.bsdProp.bind
        (fun bn => GetMountPathFromDisk env bn))).head? with
    | none =>
      have : svc.filterMap (fun c => c.bsdProp.bind
          (fun bn => GetMountPathFromDisk env bn)) = [] :=
        List.head?_eq_none_iff.mp hh
      simp [this, ih]
    | some mp =>
      obtain ⟨t, ht⟩ : ∃ t, svc.filterMap (fun c => c.bsdProp.bind
          (fun bn => GetMountPathFromDisk env bn)) = mp :: t := by
        cases hc : svc.filterMap (fun c => c.bsdProp.bind
            (fun bn => GetMountPathFromDisk env bn)) with
        | nil => rw [hc] at hh; exact absurd hh (by simp)
        | cons x t =>
          rw [hc] at hh
          simp only [List.head?_cons, Option.some.injEq] at hh
          exact ⟨t, by rw [hh]⟩
      simp [ht]

/-- C4. For a matched interface's BSD name, mount resolution follows the
claim's order — `mountReportSpec` restates it: first mount path among the
block device's child registry nodes, otherwise the device's own
DiskArbitration mount path, otherwise the empty string — and
`GetMacMountPoint` reports exactly that value through the callback. -/
theorem GetMacMountPoint_resolution_order (bsd : BSDEnv) (sp dp b : List Char)
    (hs : bsd.sessionOk = true) (hm : bsd.matchingOk = true)
    (hp : sp.isPrefixOf dp = true) :
    (GetMacMountPoint ⟨[⟨some dp, some b⟩], bsd⟩ (some sp)).calls =
      [mountReportSpec bsd b] := by
  simp only [GetMacMountPoint, scanInterfaces, hp, if_true]
  unfold getMountPathByBSDName mountReportSpec
  rw [hs, hm]
  simp only [Bool.not_true, Bool.false_eq_true, if_false]
  rw [scanServices_eq_head]
  cases hh : (bsd.services.flatten.filterMap (fun c => c.bsdProp.bind
      (fun bn => GetMountPathFromDisk bsd bn))).head? with
  | none =>
    cases ho : GetMountPathFromDisk bsd b with
    | none => simp [hh, ho]
    | some mp => simp [hh, ho]
  | some mp => simp [hh]

theorem GetMacMountPoint_resolution_order_witness :
    (⟨true, true, [[⟨some ['p']⟩]], [(['p'], ['c']), (['d'], ['m'])]⟩ : BSDEnv).sessionOk = true ∧
    (⟨true, true, [[⟨some ['p']⟩]], [(['p'], ['c']), (['d'], ['m'])]⟩ : BSDEnv).matchingOk = true ∧
    List.isPrefixOf ['a'] ['a', 'b'] = true ∧
    (GetMacMountPoint
        ⟨[⟨some ['a', 'b'], some ['d']⟩],
         ⟨true, true, [[⟨some ['p']⟩]], [(['p'], ['c']), (['d'], ['m'])]⟩⟩
        (some ['a'])).calls =
      [mountReportSpec
        ⟨true, true, [[⟨some ['p']⟩]], [(['p'], ['c']), (['d'], ['m'])]⟩ ['d']] :=
  ⟨rfl, rfl, by decide,
   GetMacMountPoint_resolution_order
     ⟨true, true, [[⟨some ['p']⟩]], [(['p'], ['c']), (['d'], ['m'])]⟩
     ['a'] ['a', 'b'] ['d'] rfl rfl (by decide)⟩

/-- Both sessions of the two-session scenario taken through the
`Created→Running` transition (the second-created session first). -/
def bothRunning (a b c d : Nat) (w0 : MacWorld) : MacWorld :=
  RunMacWatcherStart (twoSessions a b c d w0).1
    (RunMacWatcherStart (twoSessions a b c d w0).2.1 (twoSessions a b c d w0).2.2)

/-- `find?` by key commutes with a key-preserving per-entry update. -/
theorem find?_key_map (l : List (Nat × MacWatcherContext)) (i : Nat)
    (f : Nat × MacWatcherContext → Nat × MacWatcherContext)
    (hf : ∀ p, (f p).1 = p.1) :
    (l.map f).find? (fun p => p.1 == i) =
      (l.find? (fun p => p.1 == i)).map f := by
  induction l with
  | nil => rfl
  | cons p rest ih =>
    simp only [List.map_cons, List.find?_cons, hf p]
    by_cases hpi : p.1 = i
    · simp [hpi]
    · have h : (p.1 == i) = false := by simp [hpi]
      simp [h, ih]

/-- `RunMacWatcher`'s start transition on one context leaves every other
context untouched. -/
theorem getContext_run_other (w : MacWorld) (i j : Nat) (hij : i ≠ j) :
    getContext (RunMacWatcherStart j w) i = getContext w i := by
  unfold getContext RunMacWatcherStart
  simp only []
  rw [find?_key_map _ i _ (fun p => by by_cases h : p.1 = j <;> simp [h])]
  cases hf : w.contexts.find? (fun p => p.1 == i) with
  | none => rfl
  | some p =>
    have hpi : p.1 = i := by simpa using List.find?_some hf
    simp only [Option.map_some']
    rw [if_neg (show ¬(p.1 == j) = true by rw [hpi]; simp [hij])]

/-- `StopMacWatcher` on one context leaves every other context
untouched. -/
theorem getContext_stop_other (w : MacWorld) (i j : Nat) (hij : i ≠ j) :
    getContext (StopMacWatcherCtx j w) i = getContext w i := by
  unfold getContext StopMacWatcherCtx
  simp only []
  rw [find?_key_map _ i _ (fun p => by
    by_cases h : p.1 = j
    · cases hs : p.2.stopSignalSource <;> simp [h, hs]
    · simp [h])]
  cases hf : w.contexts.find? (fun p => p.1 == i) with
  | none => rfl
  | some p =>
    have hpi : p.1 = i := by simpa using List.find?_some hf
    simp only [Option.map_some']
    rw [if_neg (show ¬(p.1 == j) = true by rw [hpi]; simp [hij])]

/-- `RunMacWatcher`'s start transition binds fresh handles into the target
context. -/
theorem getContext_run_self (w : MacWorld) (i : Nat) :
    getContext (RunMacWatcherStart i w) i =
      (getContext w i).map (fun ctx =>
        { ctx with runLoop := some w.nextHandle,
                   notificationPort := some (w.nextHandle + 1),
                   stopSignalSource := some (w.nextHandle + 2) }) := by
  unfold getContext RunMacWatcherStart
  simp only []
  rw [find?_key_map _ i _ (fun p => by by_cases h : p.1 = i <;> simp [h])]
  cases hf : w.contexts.find? (fun p => p.1 == i) with
  | none => rfl
  | some p =>
    have hpi : p.1 = i := by simpa using List.find?_some hf
    simp only [Option.map_some']
    rw [if_pos (show (p.1 == i) = true by simp [hpi])]

/-- C8. Two watcher contexts created by separate `CreateMacWatcherContext`
calls have independent, non-interfering lifecycles: the ids are distinct;
each context keeps its own listener pair; after both sessions' run
transitions the two contexts hold pairwise distinct run-loop,
notification-port and stop-signal handles (nothing shared); running one
session does not change the other's stored state, and stopping one leaves
the other untouched. -/
theorem watcher_contexts_independent (w0 : MacWorld) (a b c d : Nat) :
    (twoSessions a b c d w0).1 ≠ (twoSessions a b c d w0).2.1 ∧
    getContext (twoSessions a b c d w0).2.2 (twoSessions a b c d w0).1 =
      some { insertedCallback := a, removedCallback := b } ∧
    getContext (twoSessions a b c d w0).2.2 (twoSessions a b c d w0).2.1 =
      some { insertedCallback := c, removedCallback := d } ∧
    getContext (bothRunning a b c d w0) (twoSessions a b c d w0).1 =
      some { insertedCallback := a, removedCallback := b,
             runLoop := some (w0.nextHandle + 3),
             notificationPort := some (w0.nextHandle + 4),
             stopSignalSource := some (w0.nextHandle + 5) } ∧
    getContext (bothRunning a b c d w0) (twoSessions a b c d w0).2.1 =
      some { insertedCallback := c, removedCallback := d,
             runLoop := some w0.nextHandle,
             notificationPort := some (w0.nextHandle + 1),
             stopSignalSource := some (w0.nextHandle + 2) } ∧
    (∀ ctx1 ctx2 : MacWatcherContext,
      getContext (bothRunning a b c d w0) (twoSessions a b c d w0).1 = some ctx1 →
      getContext (bothRunning a b c d w0) (twoSessions a b c d w0).2.1 = some ctx2 →
      ctx1.runLoop ≠ ctx2.runLoop ∧
      ctx1.notificationPort ≠ ctx2.notificationPort ∧
      ctx1.stopSignalSource ≠ ctx2.stopSignalSource) ∧
    getContext
        (StopMacWatcherCtx (twoSessions a b c d w0).2.1 (bothRunning a b c d w0))
        (twoSessions a b c d w0).1 =
      getContext (bothRunning a b c d w0) (twoSessions a b c d w0).1 := by
  have hne : w0.nextId ≠ w0.nextId + 1 := Nat.ne_of_lt (Nat.lt_succ_self _)
  have hid1 : (twoSessions a b c d w0).1 = w0.nextId := rfl
  have hid2 : (twoSessions a b c d w0).2.1 = w0.nextId + 1 := rfl
  have hw2 : (twoSessions a b c d w0).2.2 =
      { contexts :=
          (w0.nextId + 1, { insertedCallback := c, removedCallback := d }) ::
          (w0.nextId, { insertedCallback := a, removedCallback := b }) ::
          w0.contexts,
        nextId := w0.nextId + 2, nextHandle := w0.nextHandle } := rfl
  have hga : getContext (twoSessions a b c d w0).2.2 w0.nextId =
      some { insertedCallback := a, removedCallback := b } := by
    rw [hw2]
    unfold getContext
    simp [List.find?_cons, Nat.succ_ne_self]
  have hgc : getContext (twoSessions a b c d w0).2.2 (w0.nextId + 1) =
      some { insertedCallback := c, removedCallback := d } := by
    rw [hw2]
    unfold getContext
    simp [List.find?_cons]
  have hWmid : bothRunning a b c d w0 =
      RunMacWatcherStart w0.nextId
        (RunMacWatcherStart (w0.nextId + 1) (twoSessions a b c d w0).2.2) := rfl
  have hnh : (RunMacWatcherStart (w0.nextId + 1) (twoSessions a b c d w0).2.2).nextHandle =
      w0.nextHandle + 3 := by
    rw [hw2]
    simp [RunMacWatcherStart]
  have hnh0 : (twoSessions a b c d w0).2.2.nextHandle = w0.nextHandle := by
    rw [hw2]
  have hrun1 : getContext (bothRunning a b c d w0) w0.nextId =
      some { insertedCallback := a, removedCallback := b,
             runLoop := some (w0.nextHandle + 3),
             notificationPort := some (w0.nextHandle + 4),
             stopSignalSource := some (w0.nextHandle + 5) } := by
    rw [hWmid, getContext_run_self, getContext_run_other _ _ _ hne, hga, hnh]
    rfl
  have hrun2 : getContext (bothRunning a b c d w0) (w0.nextId + 1) =
      some { insertedCallback := c, removedCallback := d,
             runLoop := some w0.nextHandle,
             notificationPort := some (w0.nextHandle + 1),
             stopSignalSource := some (w0.nextHandle + 2) } := by
    rw [hWmid, getContext_run_other _ _ _ (Ne.symm hne), getContext_run_self,
      hgc, hnh0]
    rfl
  refine ⟨hne, hga, hgc, hrun1, hrun2, ?_, ?_⟩
  · intro ctx1 ctx2 h1 h2
    rw [hid1, hrun1] at h1
    rw [hid2, hrun2] at h2
    obtain rfl : ctx1 = _ := (Option.some.injEq _ _ ▸ h1).symm
    obtain rfl : ctx2 = _ := (Option.some.injEq _ _ ▸ h2).symm
    refine ⟨?_, ?_, ?_⟩ <;> simp
  · rw [hid1, hid2]
    exact getContext_stop_other _ _ _ hne

theorem watcher_contexts_independent_witness :
    (0 : Nat) ≠ 1 ∧
    getContext (bothRunning 10 11 12 13 ⟨[], 0, 0⟩) 0 =
      some { insertedCallback := 10, removedCallback := 11,
             runLoop := some 3, notificationPort := some 4,
             stopSignalSource := some 5 } ∧
    getContext (bothRunning 10 11 12 13 ⟨[], 0, 0⟩) 1 =
      some { insertedCallback := 12, removedCallback := 13,
             runLoop := some 0, notificationPort := some 1,
             stopSignalSource := some 2 } ∧
    ({ insertedCallback := 10, removedCallback := 11,
       runLoop := some 3, notificationPort := some 4,
       stopSignalSource := some 5 } : MacWatcherContext).runLoop ≠
      ({ insertedCallback := 12, removedCallback := 13,
         runLoop := some 0, notificationPort := some 1,
         stopSignalSource := some 2 } : MacWatcherContext).runLoop := by
  have h := watcher_contexts_independent ⟨[], 0, 0⟩ 10 11 12 13
  exact ⟨h.1, h.2.2.2.1, h.2.2.2.2.1,
    (h.2.2.2.2.2.1 _ _ h.2.2.2.1 h.2.2.2.2.1).1⟩

end UsbEvents
